import Mathlib

/-!
Verification development for the `catacrawl` repository: a shallow embedding
of the JWT-authenticated game server (`src/game_server/game_server.hpp`), the
tic-tac-toe game module and matchmaker (`src/examples/tic_tac_toe/...`), and
proofs of the specified properties.

Conventions of the embedding:
- `PlayerId` and connection handles are `Nat`.
- C++ `std::map` / `unordered_map` values are association lists with unique
  keys; `insertA` is `operator[]=` (insert-or-assign), `eraseA` is `erase`.
- Mutation becomes explicit state passing; network output (frames, closes)
  becomes an explicit effect list.
- Exceptions become `Option` / explicit outcome types.
-/

namespace Catacrawl

/-- A minimal JSON value type, standing in for `nlohmann::json`. -/
inductive Json where
  | null : Json
  | bool (b : Bool) : Json
  | num (n : Int) : Json
  | str (s : String) : Json
  | arr (xs : List Json) : Json
  | obj (kvs : List (String × Json)) : Json

/-! ## Association-list maps (model of `std::map` with unique keys) -/

def lookupA {β : Type} : List (Nat × β) → Nat → Option β
  | [], _ => none
  | (k, v) :: rest, k' => if k' = k then some v else lookupA rest k'

def insertA {β : Type} : List (Nat × β) → Nat → β → List (Nat × β)
  | [], k, v => [(k, v)]
  | (k0, v0) :: rest, k, v =>
    if k = k0 then (k, v) :: rest else (k0, v0) :: insertA rest k v

def eraseA {β : Type} : List (Nat × β) → Nat → List (Nat × β)
  | [], _ => []
  | (k0, v0) :: rest, k => if k = k0 then rest else (k0, v0) :: eraseA rest k

def keysA {β : Type} (l : List (Nat × β)) : List Nat := l.map Prod.fst

/-! ## Game module interface and game instance

`game_instance<game_data, json_traits>` (game_server.hpp, lines 65-183) wraps
one `game_data` object (the opaque game module).  The module is modelled as a
state type `σ` together with the capability record below.  The module's
outgoing message queue is kept in the instance record (`queue`); a module
operation returns its new core state together with the messages it appended
to the queue. -/

/-- One outgoing message of a game module: a broadcast flag, a target player
id (meaningful when not broadcast), and the text payload. -/
structure GMessage where
  broadcast : Bool
  id : Nat
  text : String

/-- Capability record of the `game_data` template parameter of
`game_instance` / `game_server` (spec 6.1). -/
structure GameModule (σ : Type) where
  ofJson : Json → σ
  is_valid : σ → Bool
  get_creator_id : σ → Nat
  get_player_list : σ → List Nat
  connect : σ → Nat → σ × List GMessage
  disconnect : σ → Nat → σ × List GMessage
  player_update : σ → Nat → Json → σ × List GMessage
  game_update : σ → Int → σ × List GMessage
  is_done : σ → Bool

/-- State of one `game_instance`: `m_player_connections`, `m_player_status`,
the wrapped module state `m_game`, and the module's pending outgoing
messages. -/
structure GameInstance (σ : Type) where
  connections : List (Nat × Nat)
  status : List (Nat × Bool)
  game : σ
  queue : List GMessage

/-- `game_instance(s, data)`: fresh maps, module state copied from `data`. -/
def mkGameInstance {σ : Type} (d : σ) : GameInstance σ :=
  { connections := [], status := [], game := d, queue := [] }

/-- Read of `m_player_status[id]` (absent entries read as `false`, matching
the default-constructed `bool`). -/
def giStatus {σ : Type} (gi : GameInstance σ) (id : Nat) : Bool :=
  (lookupA gi.status id).getD false

/-- `game_instance::connect` (lines 73-81): record the handle; if the player
was not already marked connected, mark it and call `m_game.connect(id)`. -/
def giConnect {σ : Type} (gm : GameModule σ) (gi : GameInstance σ)
    (id hdl : Nat) : GameInstance σ :=
  let conns := insertA gi.connections id hdl
  if (lookupA gi.status id).getD false then
    { gi with connections := conns }
  else
    let r := gm.connect gi.game id
    { connections := conns, status := insertA gi.status id true,
      game := r.1, queue := gi.queue ++ r.2 }

/-- `game_instance::disconnect` (lines 83-88). -/
def giDisconnect {σ : Type} (gm : GameModule σ) (gi : GameInstance σ)
    (id : Nat) : GameInstance σ :=
  let r := gm.disconnect gi.game id
  { gi with
    status := insertA gi.status id false
    game := r.1
    queue := gi.queue ++ r.2 }

/-- `game_instance::get_connection` (lines 95-98); an absent entry reads as
the default-constructed handle, modelled by `0`. -/
def giGetConnection {σ : Type} (gi : GameInstance σ) (id : Nat) : Nat :=
  (lookupA gi.connections id).getD 0

/-- `game_instance::broadcast` (lines 140-149): the frames it emits, one to
each recorded connection whose player status reads `true`. -/
def giBroadcastSends {σ : Type} (gi : GameInstance σ) (text : String) :
    List (Nat × String) :=
  (gi.connections.filter (fun e => (lookupA gi.status e.1).getD false)).map
    (fun e => (e.2, text))

/-- `game_instance::send` (lines 151-163): the frames it emits — one to the
target's recorded handle when the target's status reads `true`, none
otherwise. -/
def giSendOne {σ : Type} (gi : GameInstance σ) (id : Nat) (text : String) :
    List (Nat × String) :=
  if (lookupA gi.status id).getD false then
    [((lookupA gi.connections id).getD 0, text)]
  else
    []

/-- The while-loop of `game_instance::send_messages` (lines 165-176):
process the queued messages front to back.  Neither branch changes the
connection or status maps, so the surrounding state is a constant `gi`. -/
def drainLoop {σ : Type} (gi : GameInstance σ) : List GMessage → List (Nat × String)
  | [] => []
  | m :: rest =>
    (if m.broadcast then giBroadcastSends gi m.text else giSendOne gi m.id m.text)
      ++ drainLoop gi rest

/-- `game_instance::send_messages`: drain the whole queue, returning the
frames sent. -/
def giSendMessages {σ : Type} (gi : GameInstance σ) :
    GameInstance σ × List (Nat × String) :=
  ({ gi with queue := [] }, drainLoop gi gi.queue)

/-- `game_instance::process_player_update` (lines 100-114): parse the text
with the pluggable `json_traits::parse` (modelled as `parse`); on failure
log and return, on success run `m_game.player_update` and drain. -/
def giProcessPlayerUpdate {σ : Type} (gm : GameModule σ)
    (parse : String → Option Json) (gi : GameInstance σ) (id : Nat)
    (text : String) : GameInstance σ × List (Nat × String) :=
  match parse text with
  | none => (gi, [])
  | some j =>
    let r := gm.player_update gi.game id j
    giSendMessages { gi with game := r.1, queue := gi.queue ++ r.2 }

/-- `game_instance::game_update` (lines 118-126): run `m_game.game_update`,
drain, and return `m_game.is_done()`. -/
def giGameUpdate {σ : Type} (gm : GameModule σ) (gi : GameInstance σ)
    (delta : Int) : (GameInstance σ × List (Nat × String)) × Bool :=
  let r := gm.game_update gi.game delta
  let d := giSendMessages { gi with game := r.1, queue := gi.queue ++ r.2 }
  (d, gm.is_done d.1.game)

/-! ## Game server

`game_server<game_data, jwt_clock, json_traits>` (game_server.hpp, lines
185-446).  Game instances are `shared_ptr`s; pointer identity is modelled by
a `Nat` key into a heap that keeps every allocated instance (an instance
referenced from `m_player_games` stays alive after `m_games.erase`, exactly
as a `shared_ptr` copy keeps the object alive). -/

/-- Observable network side effects of the server: `m_server.close(hdl,
normal, reason)` and `m_server.send(hdl, text)`. -/
inductive Effect where
  | closeHdl (hdl : Nat) (reason : String) : Effect
  | sendTxt (hdl : Nat) (text : String) : Effect

/-- State of a `game_server`: the session table `m_connection_ids`, the heap
of allocated game instances, the set `m_games` (as the list of live keys),
the reverse index `m_player_games` (player id to game key), and the next
fresh heap key (each `make_shared` allocates a new object). -/
structure ServerState (σ : Type) where
  connection_ids : List (Nat × Nat)
  heap : List (Nat × GameInstance σ)
  games : List Nat
  player_games : List (Nat × Nat)
  fresh : Nat

/-- The empty server state (no sessions, no games). -/
def emptyServer (σ : Type) : ServerState σ :=
  { connection_ids := [], heap := [], games := [], player_games := [], fresh := 0 }

/-- Outcome of the `try` block of `setup_player` (lines 248-264).  The four
failure constructors correspond to the `catch` clauses; `badVerify` is the
case where `jwt::decode` and the `game_data` claim extraction succeeded but
`m_jwt_verifier.verify` threw (bad signature, wrong issuer, wrong
algorithm).  Crucially, in that case the local `login_json` has already been
assigned the claim's JSON before the throw. -/
inductive TokenResult where
  | malformed : TokenResult
  | missingClaim : TokenResult
  | badVerify (gd : Json) : TokenResult
  | ok (gd : Json) : TokenResult

/-- The value of the local `login_json` after the `try`/`catch` block of
`setup_player`: default-constructed (`null` for nlohmann) unless the
`game_data` claim was extracted before any exception. -/
def extracted_login_json : TokenResult → Json
  | TokenResult.malformed => Json.null
  | TokenResult.missingClaim => Json.null
  | TokenResult.badVerify gd => gd
  | TokenResult.ok gd => gd

/-- Whether token verification succeeded. -/
def verification_ok : TokenResult → Bool
  | TokenResult.ok _ => true
  | _ => false

/-- `game_server::player_connect` (lines 337-366). -/
def player_connect {σ : Type} (gm : GameModule σ) (s : ServerState σ)
    (hdl : Nat) (d : σ) : ServerState σ × List Effect :=
  let main_id := gm.get_creator_id d
  match lookupA s.player_games main_id with
  | none =>
    -- new game: make_shared, m_games.insert, fill the reverse index,
    -- then m_player_games[main_id]->connect(main_id, hdl)
    let gid := s.fresh
    let heap1 := insertA s.heap gid (mkGameInstance d)
    let pg1 := (gm.get_player_list d).foldl
      (fun acc pid => insertA acc pid gid) s.player_games
    -- the source reads m_player_games[main_id] here; when the creator is
    -- not in get_player_list that operator[] yields a null shared_ptr and
    -- the call is undefined behaviour, so the model falls back to gid
    let gid' := (lookupA pg1 main_id).getD gid
    let heap2 :=
      match lookupA heap1 gid' with
      | some gi => insertA heap1 gid' (giConnect gm gi main_id hdl)
      | none => heap1
    ({ s with
        heap := heap2
        games := s.games ++ [gid]
        player_games := pg1
        fresh := s.fresh + 1 }, [])
  | some gid =>
    match lookupA s.heap gid with
    | none => (s, [])  -- unreachable: the reverse index holds a live shared_ptr
    | some gi =>
      if giStatus gi main_id then
        let oldh := giGetConnection gi main_id
        ({ s with
            connection_ids := eraseA s.connection_ids oldh
            heap := insertA s.heap gid (giConnect gm gi main_id hdl) },
         [Effect.closeHdl oldh "player connected again"])
      else
        ({ s with heap := insertA s.heap gid (giConnect gm gi main_id hdl) }, [])

/-- `game_server::setup_player` (lines 246-279).  The catch clauses only
log; control always reaches `game_data d(login_json)`, so whenever the
(possibly unverified) extracted claim yields valid game data, the handle is
bound and `player_connect` runs. -/
def setup_player {σ : Type} (gm : GameModule σ) (s : ServerState σ)
    (hdl : Nat) (tok : TokenResult) : ServerState σ × List Effect :=
  let d := gm.ofJson (extracted_login_json tok)
  if gm.is_valid d then
    let s1 := { s with
      connection_ids := insertA s.connection_ids hdl (gm.get_creator_id d) }
    player_connect gm s1 hdl d
  else
    (s, [])

/-- `game_server::player_disconnect` (lines 368-380): read and erase the
session-table entry, call `disconnect` on the player's game, and erase the
player from the reverse index.  (When the player is absent from the reverse
index the source's `operator[]` dereferences a null shared_ptr — undefined
behaviour — modelled as skipping the module call.) -/
def player_disconnect {σ : Type} (gm : GameModule σ) (s : ServerState σ)
    (hdl : Nat) : ServerState σ × List Effect :=
  let id := (lookupA s.connection_ids hdl).getD 0
  let conn1 := eraseA s.connection_ids hdl
  let heap1 :=
    match lookupA s.player_games id with
    | some gid =>
      match lookupA s.heap gid with
      | some gi => insertA s.heap gid (giDisconnect gm gi id)
      | none => s.heap
    | none => s.heap
  ({ s with
      connection_ids := conn1
      heap := heap1
      player_games := eraseA s.player_games id }, [])

/-- Body of one iteration of the loop over `m_games` in
`game_server::update_games` (lines 393-413): run `game_update`; when it
returns `true` keep the game, otherwise close every player's connection
with reason "game ended" and erase the game from `m_games`. -/
def tickGame {σ : Type} (gm : GameModule σ) (delta : Int)
    (acc : ServerState σ × List Effect) (gid : Nat) :
    ServerState σ × List Effect :=
  let s := acc.1
  match lookupA s.heap gid with
  | none => acc
  | some gi =>
    let u := giGameUpdate gm gi delta
    let heap1 := insertA s.heap gid u.1.1
    let sendEffs := u.1.2.map (fun p => Effect.sendTxt p.1 p.2)
    if u.2 then
      ({ s with heap := heap1 }, acc.2 ++ sendEffs)
    else
      let closes := (gm.get_player_list u.1.1.game).map
        (fun id => Effect.closeHdl (giGetConnection u.1.1 id) "game ended")
      ({ s with
          heap := heap1
          games := s.games.filter (fun g => g ≠ gid) },
       acc.2 ++ sendEffs ++ closes)

/-- One tick of `game_server::update_games` (the `delta_time >= timestep`
branch, lines 388-414): iterate over a snapshot of `m_games`, erasing in
place. -/
def update_games_tick {σ : Type} (gm : GameModule σ) (s : ServerState σ)
    (delta : Int) : ServerState σ × List Effect :=
  s.games.foldl (tickGame gm delta) (s, [])

/-- The game-store invariant of the spec (section 8, invariant 2): every
player in the reverse index references a game that is in `m_games`. -/
def storeInvariant {σ : Type} (s : ServerState σ) : Prop :=
  ∀ p gid, lookupA s.player_games p = some gid → gid ∈ s.games

/-! ## Tic-tac-toe board (`tic_tac_toe_game.hpp`, lines 20-132) -/

/-- `X_VAL`, `O_VAL`, `EMPTY_VAL`. -/
def X_VAL : Int := 1
def O_VAL : Int := -1
def EMPTY_VAL : Int := 0

/-- `tic_tac_toe_board`: the 9-cell vector, the win state `m_state`, and
`m_move_count`. -/
structure TttBoard where
  board : List Int
  state : Int
  move_count : Nat

/-- The board constructor (lines 26-30): nine empty cells. -/
def mkBoard : TttBoard :=
  { board := List.replicate 9 0, state := 0, move_count := 0 }

/-- `tic_tac_toe_board::get_value` (lines 67-69): `m_board[i + 3*j]`. -/
def bGetValue (b : TttBoard) (i j : Nat) : Int :=
  b.board.getD (i + 3 * j) 0

/-- The vector indexes touched by `move(x, y, s)`: the written cell and the
cells read by the column, row, diagonal and anti-diagonal checks. -/
def moveAccesses (x y : Nat) : List Nat :=
  [x + 3 * y] ++ [x + 3 * 0, x + 3 * 1, x + 3 * 2]
    ++ [0 + 3 * y, 1 + 3 * y, 2 + 3 * y]
    ++ (if x = y then [0 + 3 * 0, 1 + 3 * 1, 2 + 3 * 2] else [])
    ++ (if x + y = 2 then [0 + 3 * 2, 1 + 3 * 1, 2 + 3 * 0] else [])

/-- `tic_tac_toe_board::move` (lines 75-126): write the cell, bump the move
count, and set `m_state` to `s` when the written cell completes the column,
the row, the diagonal (when `x == y`) or the anti-diagonal (when
`x + y == 2`); each early-exiting `for` loop is the conjunction of its three
cell comparisons. -/
def bMove (b : TttBoard) (x y : Nat) (s : Int) : TttBoard :=
  let brd := b.board.set (x + 3 * y) s
  let b1 : TttBoard := { board := brd, state := b.state, move_count := b.move_count + 1 }
  let col := bGetValue b1 x 0 = s ∧ bGetValue b1 x 1 = s ∧ bGetValue b1 x 2 = s
  let row := bGetValue b1 0 y = s ∧ bGetValue b1 1 y = s ∧ bGetValue b1 2 y = s
  let dia := x = y ∧ bGetValue b1 0 0 = s ∧ bGetValue b1 1 1 = s ∧ bGetValue b1 2 2 = s
  let anti := x + y = 2 ∧ bGetValue b1 0 2 = s ∧ bGetValue b1 1 1 = s ∧ bGetValue b1 2 0 = s
  if col ∨ row ∨ dia ∨ anti then { b1 with state := s } else b1

/-- `tic_tac_toe_board::add_x` (lines 32-41). -/
def add_x (b : TttBoard) (i j : Nat) : TttBoard × Bool :=
  if i > 2 ∨ j > 2 then (b, false)
  else if bGetValue b i j ≠ EMPTY_VAL then (b, false)
  else (bMove b i j X_VAL, true)

/-- `tic_tac_toe_board::add_o` (lines 43-52). -/
def add_o (b : TttBoard) (i j : Nat) : TttBoard × Bool :=
  if i > 2 ∨ j > 2 then (b, false)
  else if bGetValue b i j ≠ EMPTY_VAL then (b, false)
  else (bMove b i j O_VAL, true)

/-- `tic_tac_toe_board::is_done` (lines 58-60). -/
def bIsDone (b : TttBoard) : Bool :=
  decide (b.move_count = 9) || decide (b.state ≠ 0)

/-- Well-formedness of a board reachable through the constructor and the
`add_x` / `add_o` interface: nine cells, and the move count equals the
number of non-empty cells. -/
def boardWF (b : TttBoard) : Prop :=
  b.board.length = 9 ∧ b.move_count = (b.board.filter (fun c => c ≠ 0)).length

/-! ## Tic-tac-toe game construction and matchmaker
(`tic_tac_toe_game.hpp`, lines 170-462) -/

/-- Key lookup in a JSON object member list. -/
def lookupJ : List (String × Json) → String → Option Json
  | [], _ => none
  | (k0, v) :: rest, k => if k = k0 then some v else lookupJ rest k

/-- Lookup of a key in a JSON object: `msg.at(key)` returning `none` where
the source throws (`key` absent, or the value is not an object). -/
def jsonAt : Json → String → Option Json
  | Json.obj kvs, k => lookupJ kvs k
  | _, _ => none

/-- `value.get<bool>()`: `none` where nlohmann throws (non-boolean value). -/
def jsonGetBool : Json → Option Bool
  | Json.bool b => some b
  | _ => none

/-- Constructor-visible state of a `tic_tac_toe_game` (lines 176-190 set
`m_valid`; the remaining members take the listed initial values). -/
structure TttGame where
  valid : Bool
  started : Bool
  game_over : Bool
  xmove : Bool
  state : Int
  xtime : Int
  otime : Int
  elapsed_time : Int
  player_list : List Nat
  move_list : List Json
  board : TttBoard

/-- `tic_tac_toe_game::tic_tac_toe_game(msg)` (lines 176-190): `m_valid`
starts `true`; if `msg.at("matched").get<bool>()` throws, `m_valid` becomes
`false` and `is_matched` keeps its initial `false`; afterwards `m_valid`
is also cleared when `is_matched` is `false`. -/
def tttGameMk (msg : Json) : TttGame :=
  let r : Bool × Bool :=
    match (jsonAt msg "matched").bind jsonGetBool with
    | some b => (true, b)
    | none => (false, false)
  let vald := if r.2 then r.1 else false
  { valid := vald, started := false, game_over := false, xmove := true,
    state := 0, xtime := 100000, otime := 100000, elapsed_time := 0,
    player_list := [], move_list := [], board := mkBoard }

/-- `tic_tac_toe_game::is_valid` (lines 290-292). -/
def tttIsValid (g : TttGame) : Bool := g.valid

/-- `tic_tac_toe_matchmaker::get_cancel_data` (lines 454-458). -/
def ttt_get_cancel_data : Json := Json.obj [("matched", Json.bool false)]

/-- A group emitted by the matchmaker: the listed sessions, the group id,
and the game-data JSON (`tic_tac_toe_matchmaker::game`). -/
structure MatchGroup where
  sessions : List Nat
  group_id : Nat
  data : Json

/-- The loop of `tic_tac_toe_matchmaker::match` (lines 434-452): push each
session id onto `sl`; once `sl` holds two ids, emit the group (with the next
fresh group id and data `matched: true`) and continue with `sl` emptied by
the `std::move`. -/
def ttt_match_loop : List Nat → List Nat → Nat → List MatchGroup →
    List MatchGroup × Nat
  | [], _, sid, acc => (acc, sid)
  | sess :: rest, sl, sid, acc =>
    let sl1 := sl ++ [sess]
    if sl1.length > 1 then
      ttt_match_loop rest [] (sid + 1)
        (acc ++ [{ sessions := sl1, group_id := sid,
                   data := Json.obj [("matched", Json.bool true)] }])
    else
      ttt_match_loop rest sl1 sid acc

/-- `tic_tac_toe_matchmaker::match` over a snapshot of the session map keys,
starting from the current `m_sid_count`. -/
def ttt_match (sessions : List Nat) (sid : Nat) : List MatchGroup × Nat :=
  ttt_match_loop sessions [] sid []

/-- A signed JWT as produced by the matchmaking server's `sign_game`. -/
structure SignedToken where
  alg : String
  issuer : String
  claim_id : Nat
  claim_data : Json
  key : String

/-- `sign_game` from `matchmaking_server.cpp` (lines 38-44): an HS256 token
with issuer `tic_tac_toe_matchmaker` and payload claims `id` and `data`. -/
def sign_game (secret : String) (id : Nat) (data : Json) : SignedToken :=
  { alg := "HS256", issuer := "tic_tac_toe_matchmaker", claim_id := id,
    claim_data := data, key := secret }

/-- Modelled from the spec: the matchmaking-server tick (the file
`jwt_game_server/matchmaking_server.hpp` is not under `src/`; only its
caller `matchmaking_server.cpp` is).  Spec section 4.7, step 3: for each
emitted group, sign a token with `sign_game` over the group id and game
data, and send it as a text frame to every listed session. -/
def matchmaking_tick_send (secret : String) (groups : List MatchGroup) :
    List (Nat × SignedToken) :=
  groups.foldr
    (fun g acc => g.sessions.map (fun sess => (sess, sign_game secret g.group_id g.data)) ++ acc)
    []

/-! ## Concrete fixtures

Small concrete modules and states used to evaluate the embedding at
particular inputs. -/

/-- A game module whose state is the construction JSON itself: valid exactly
when that JSON is the boolean `true`, creator id `7`, and inert game
logic. -/
def jsonGM : GameModule Json where
  ofJson := fun j => j
  is_valid := fun j => match j with | Json.bool true => true | _ => false
  get_creator_id := fun _ => 7
  get_player_list := fun _ => [7]
  connect := fun s _ => (s, [])
  disconnect := fun s _ => (s, [])
  player_update := fun s _ _ => (s, [])
  game_update := fun s _ => (s, [])
  is_done := fun _ => false

/-- An inert single-player module whose `is_done` is always `true`. -/
def doneGM : GameModule Unit where
  ofJson := fun _ => ()
  is_valid := fun _ => true
  get_creator_id := fun _ => 1
  get_player_list := fun _ => [1]
  connect := fun s _ => (s, [])
  disconnect := fun s _ => (s, [])
  player_update := fun s _ _ => (s, [])
  game_update := fun s _ => (s, [])
  is_done := fun _ => true

/-- The same module with `is_done` always `false` (a game still running). -/
def runningGM : GameModule Unit :=
  { doneGM with is_done := fun _ => false }

/-- A game instance with player 1 connected on handle 5. -/
def gi1 : GameInstance Unit :=
  { connections := [(1, 5)], status := [(1, true)], game := (), queue := [] }

/-- A server with the single game `gi1` (key 0), player 1 bound through
handle 5. -/
def S1 : ServerState Unit :=
  { connection_ids := [(5, 1)], heap := [(0, gi1)], games := [0],
    player_games := [(1, 0)], fresh := 1 }

/-- A `jsonGM` instance with player 7 connected on handle 11. -/
def gi4 : GameInstance Json :=
  { connections := [(7, 11)], status := [(7, true)], game := Json.bool true,
    queue := [] }

/-- A server with the single `jsonGM` game `gi4` (key 0), player 7 bound
through handle 11. -/
def S4 : ServerState Json :=
  { connection_ids := [(11, 7)], heap := [(0, gi4)], games := [0],
    player_games := [(7, 0)], fresh := 1 }

/-- A two-player instance: player 1 connected on handle 10, player 2
recorded on handle 20 but disconnected. -/
def giW : GameInstance Unit :=
  { connections := [(1, 10), (2, 20)], status := [(1, true), (2, false)],
    game := (), queue := [] }

/-- A parse function that rejects every payload. -/
def noParse : String → Option Json := fun _ => none

/-- The tic-tac-toe game wired into the game-server module interface:
construction, validity and `is_done` are the source's
(`tic_tac_toe_game.hpp`); the capabilities this file never exercises are
inert. -/
def tttGM : GameModule TttGame where
  ofJson := tttGameMk
  is_valid := tttIsValid
  get_creator_id := fun _ => 0
  get_player_list := fun _ => []
  connect := fun g _ => (g, [])
  disconnect := fun g _ => (g, [])
  player_update := fun g _ _ => (g, [])
  game_update := fun g _ => (g, [])
  is_done := fun g => bIsDone g.board || g.game_over

/-! ## Association-list lemmas -/

theorem lookupA_insertA_self {β : Type} (l : List (Nat × β)) (k : Nat) (v : β) :
    lookupA (insertA l k v) k = some v := by
  induction l with
  | nil => simp [insertA, lookupA]
  | cons hd tl ih =>
    obtain ⟨k0, v0⟩ := hd
    by_cases h : k = k0
    · simp [insertA, lookupA, h]
    · simp [insertA, lookupA, h, ih]

theorem lookupA_insertA_ne {β : Type} (l : List (Nat × β)) (k k' : Nat) (v : β)
    (h : k' ≠ k) : lookupA (insertA l k v) k' = lookupA l k' := by
  induction l with
  | nil => simp [insertA, lookupA, h]
  | cons hd tl ih =>
    obtain ⟨k0, v0⟩ := hd
    by_cases hk : k = k0
    · subst hk
      simp [insertA, lookupA, h]
    · by_cases hk' : k' = k0
      · simp [insertA, lookupA, hk, hk']
      · simp [insertA, lookupA, hk, hk', ih]

theorem insertA_insertA_same {β : Type} (l : List (Nat × β)) (k : Nat) (v v' : β) :
    insertA (insertA l k v) k v' = insertA l k v' := by
  induction l with
  | nil => simp [insertA]
  | cons hd tl ih =>
    obtain ⟨k0, v0⟩ := hd
    by_cases h : k = k0
    · simp [insertA, h]
    · simp [insertA, h, ih]

theorem insertA_eq_append {β : Type} (l : List (Nat × β)) (k : Nat) (v : β)
    (h : lookupA l k = none) : insertA l k v = l ++ [(k, v)] := by
  induction l with
  | nil => simp [insertA]
  | cons hd tl ih =>
    obtain ⟨k0, v0⟩ := hd
    by_cases hk : k = k0
    · simp [lookupA, hk] at h
    · simp [lookupA, hk] at h
      simp [insertA, hk, ih h]

theorem mem_of_lookupA {β : Type} (l : List (Nat × β)) (k : Nat) (v : β)
    (h : lookupA l k = some v) : (k, v) ∈ l := by
  induction l with
  | nil => simp [lookupA] at h
  | cons hd tl ih =>
    obtain ⟨k0, v0⟩ := hd
    by_cases hk : k = k0
    · subst hk
      simp [lookupA] at h
      simp [h]
    · simp [lookupA, hk] at h
      exact List.mem_cons_of_mem _ (ih h)

theorem lookupA_of_mem_nodup {β : Type} (l : List (Nat × β)) (k : Nat) (v : β)
    (hnd : (keysA l).Nodup) (h : (k, v) ∈ l) : lookupA l k = some v := by
  induction l with
  | nil => simp at h
  | cons hd tl ih =>
    obtain ⟨k0, v0⟩ := hd
    simp [keysA] at hnd
    rcases List.mem_cons.mp h with heq | htl
    · cases heq
      simp [lookupA]
    · have hk : k ≠ k0 := by
        intro hc
        subst hc
        exact hnd.1 v (by simpa using htl)
      simp [lookupA, hk]
      exact ih hnd.2 htl

theorem eraseA_append_left {β : Type} (l l' : List (Nat × β)) (k : Nat)
    (h : k ∈ keysA l) : eraseA (l ++ l') k = eraseA l k ++ l' := by
  induction l with
  | nil => simp [keysA] at h
  | cons hd tl ih =>
    obtain ⟨k0, v0⟩ := hd
    by_cases hk : k = k0
    · simp [eraseA, hk]
    · simp [keysA, hk] at h
      simp [eraseA, hk]
      exact ih (by simpa [keysA] using h)

theorem lookupA_eq_none {β : Type} (l : List (Nat × β)) (k : Nat)
    (h : k ∉ keysA l) : lookupA l k = none := by
  induction l with
  | nil => simp [lookupA]
  | cons hd tl ih =>
    obtain ⟨k0, v0⟩ := hd
    simp [keysA] at h
    simp [lookupA, h.1]
    exact ih (by simpa [keysA] using h.2)

theorem lookupA_eraseA {β : Type} (l : List (Nat × β)) (k k' : Nat)
    (hnd : (keysA l).Nodup) :
    lookupA (eraseA l k) k' = if k' = k then none else lookupA l k' := by
  induction l with
  | nil => simp [eraseA, lookupA]
  | cons hd tl ih =>
    obtain ⟨k0, v0⟩ := hd
    have hnd' : (keysA tl).Nodup := by
      simpa [keysA] using (List.nodup_cons.mp (by simpa [keysA] using hnd)).2
    have hk0tl : k0 ∉ keysA tl :=
      (List.nodup_cons.mp (by simpa [keysA] using hnd)).1
    by_cases hk : k = k0
    · subst hk
      by_cases hk' : k' = k
      · subst hk'
        simp [eraseA]
        exact lookupA_eq_none tl k' hk0tl
      · simp [eraseA, lookupA, hk']
    · by_cases hk' : k' = k0
      · subst hk'
        simp [eraseA, lookupA, hk]
        intro hc
        exact absurd hc.symm hk
      · simp [eraseA, lookupA, hk, hk']
        exact ih hnd'

/-! ## Claim theorems -/

/-- C7: `game_instance::connect(id, handle)` records the handle, and marks
the player connected and invokes `module.connect(id)` exactly when the
player was not previously marked connected; consequently, repeating
`connect(id, handle)` with the same arguments (the player now being marked
connected) produces a state equal to that after a single call. -/
theorem gi_connect_records_and_idempotent {σ : Type} (gm : GameModule σ)
    (gi : GameInstance σ) (id hdl : Nat) :
    (giStatus gi id = false →
      giConnect gm gi id hdl =
        { connections := insertA gi.connections id hdl
          status := insertA gi.status id true
          game := (gm.connect gi.game id).1
          queue := gi.queue ++ (gm.connect gi.game id).2 })
    ∧ (giStatus gi id = true →
      giConnect gm gi id hdl =
        { gi with connections := insertA gi.connections id hdl })
    ∧ giConnect gm (giConnect gm gi id hdl) id hdl = giConnect gm gi id hdl := by
  refine ⟨?_, ?_, ?_⟩
  · intro h
    have h' : (lookupA gi.status id).getD false = false := h
    simp [giConnect, h']
  · intro h
    have h' : (lookupA gi.status id).getD false = true := h
    simp [giConnect, h']
  · by_cases hb : (lookupA gi.status id).getD false
    · simp [giConnect, hb, insertA_insertA_same]
    · simp [giConnect, hb, lookupA_insertA_self, insertA_insertA_same]

/-- C7 witness: on the concrete instance `gi1`, player 1 is already marked
connected, so `connect` only re-records the handle. -/
theorem gi_connect_records_and_idempotent_witness :
    giConnect doneGM gi1 1 5 =
      { gi1 with connections := insertA gi1.connections 1 5 } :=
  (gi_connect_records_and_idempotent doneGM gi1 1 5).2.1 rfl

/-- C5: `process_player_update(id, text)` parses `text` first; on parse
failure it returns without touching the module state or the outgoing queue
and sends nothing; on success it invokes `module.player_update(id, json)`
and then drains the outgoing message queue. -/
theorem process_player_update_parse_guard {σ : Type} (gm : GameModule σ)
    (parse : String → Option Json) (gi : GameInstance σ) (id : Nat)
    (text : String) :
    (parse text = none → giProcessPlayerUpdate gm parse gi id text = (gi, []))
    ∧ (∀ j, parse text = some j →
        giProcessPlayerUpdate gm parse gi id text =
          giSendMessages { gi with
            game := (gm.player_update gi.game id j).1
            queue := gi.queue ++ (gm.player_update gi.game id j).2 }) := by
  constructor
  · intro h
    simp [giProcessPlayerUpdate, h]
  · intro j h
    simp [giProcessPlayerUpdate, h]

/-- C5 witness: with a parser that rejects the payload, the instance and
the send list are unchanged at a concrete input. -/
theorem process_player_update_parse_guard_witness :
    giProcessPlayerUpdate doneGM noParse gi1 1 "nonsense" = (gi1, []) :=
  (process_player_update_parse_guard doneGM noParse gi1 1 "nonsense").1 rfl

/-- C6: when a game instance drains its outgoing queue, every queued
message is delivered by `broadcast` or by `send`; a broadcast message goes
to exactly the recorded handles of players currently marked connected, and
a targeted message goes to its target's recorded handle if and only if the
target is currently marked connected (it is silently dropped otherwise), no
other player receiving it. -/
theorem drain_message_delivery {σ : Type} (gi : GameInstance σ)
    (hnd : (keysA gi.connections).Nodup) :
    ((giSendMessages gi).2 = drainLoop gi gi.queue)
    ∧ (∀ q h t, (h, t) ∈ drainLoop gi q ↔ ∃ m, m ∈ q ∧
        ((m.broadcast = true ∧ (h, t) ∈ giBroadcastSends gi m.text) ∨
         (m.broadcast = false ∧ (h, t) ∈ giSendOne gi m.id m.text)))
    ∧ (∀ text h t, (h, t) ∈ giBroadcastSends gi text ↔
        (t = text ∧ ∃ p, lookupA gi.connections p = some h ∧ giStatus gi p = true))
    ∧ (∀ id text h, lookupA gi.connections id = some h →
        giSendOne gi id text = if giStatus gi id then [(h, text)] else [])
    ∧ (∀ id text, giStatus gi id = false → giSendOne gi id text = []) := by
  refine ⟨rfl, ?_, ?_, ?_, ?_⟩
  · intro q h t
    induction q with
    | nil => simp [drainLoop]
    | cons m rest ih =>
      by_cases hmb : m.broadcast
      · simp [drainLoop, hmb, List.mem_append, ih]
      · simp [drainLoop, hmb, List.mem_append, ih]
  · intro text h t
    simp only [giBroadcastSends, List.mem_map, List.mem_filter]
    constructor
    · rintro ⟨⟨p, hdl⟩, ⟨hmem, hst⟩, heq⟩
      obtain ⟨h1, h2⟩ := Prod.mk.injEq .. ▸ heq
      refine ⟨h2.symm, p, ?_, hst⟩
      rw [← h1]
      exact lookupA_of_mem_nodup gi.connections p hdl hnd hmem
    · rintro ⟨rfl, p, hlk, hst⟩
      exact ⟨(p, h), ⟨mem_of_lookupA gi.connections p h hlk, hst⟩, rfl⟩
  · intro id text h hlk
    by_cases hst : giStatus gi id
    · have h' : (lookupA gi.status id).getD false = true := hst
      simp [giSendOne, h', hlk, hst]
    · have h' : (lookupA gi.status id).getD false = false := by
        simpa using hst
      simp [giSendOne, h', hst]
  · intro id text h
    have h' : (lookupA gi.status id).getD false = false := h
    simp [giSendOne, h']

/-- C6 witness: on the concrete instance `giW`, a targeted send to the
disconnected player 2 is dropped, and the broadcast reaches connected
player 1's handle. -/
theorem drain_message_delivery_witness :
    giSendOne giW 2 "x" = [] ∧ (10, "x") ∈ giBroadcastSends giW "x" := by
  constructor
  · exact (drain_message_delivery giW (by decide)).2.2.2.2 2 "x" rfl
  · exact ((drain_message_delivery giW (by decide)).2.2.1 "x" 10 "x").mpr
      ⟨rfl, 1, rfl, rfl⟩

theorem bMove_board (b : TttBoard) (x y : Nat) (s : Int) :
    (bMove b x y s).board = b.board.set (x + 3 * y) s := by
  simp only [bMove]
  split <;> rfl

theorem bMove_move_count (b : TttBoard) (x y : Nat) (s : Int) :
    (bMove b x y s).move_count = b.move_count + 1 := by
  simp only [bMove]
  split <;> rfl

theorem length_filter_set_nonzero (l : List Int) (idx : Nat) (v : Int)
    (hidx : idx < l.length) (hz : l.getD idx 0 = 0) (hv : v ≠ 0) :
    ((l.set idx v).filter (fun c => c ≠ 0)).length
      = (l.filter (fun c => c ≠ 0)).length + 1 := by
  induction l generalizing idx with
  | nil => simp at hidx
  | cons c rest ih =>
    cases idx with
    | zero =>
      simp [List.getD_cons_zero] at hz
      subst hz
      simp [List.set, hv]
    | succ n =>
      have hidx' : n < rest.length := by simpa using hidx
      have hz' : rest.getD n 0 = 0 := hz
      have hset : (c :: rest).set (n + 1) v = c :: rest.set n v := rfl
      rw [hset, List.filter_cons, List.filter_cons]
      by_cases hc : c = 0
      · rw [if_neg (by simp [hc]), if_neg (by simp [hc])]
        exact ih n hidx' hz'
      · rw [if_pos (by simp [hc]), if_pos (by simp [hc])]
        simpa using ih n hidx' hz'

theorem boardWF_bMove (b : TttBoard) (i j : Nat) (s : Int) (hwf : boardWF b)
    (hi : i ≤ 2) (hj : j ≤ 2) (hz : bGetValue b i j = 0) (hs : s ≠ 0) :
    boardWF (bMove b i j s) := by
  obtain ⟨hlen, hcnt⟩ := hwf
  have hidx : i + 3 * j < b.board.length := by
    rw [hlen]
    omega
  constructor
  · rw [bMove_board]
    simp [hlen]
  · rw [bMove_board, bMove_move_count, hcnt]
    exact (length_filter_set_nonzero b.board (i + 3 * j) s hidx hz hs).symm

theorem boardWF_move_count_le (b : TttBoard) (hwf : boardWF b) :
    b.move_count ≤ 9 := by
  obtain ⟨hlen, hcnt⟩ := hwf
  rw [hcnt, ← hlen]
  exact List.length_filter_le _ _

theorem boardWF_add_x (b : TttBoard) (i j : Nat) (hwf : boardWF b) :
    boardWF (add_x b i j).1 := by
  unfold add_x
  split
  · exact hwf
  · split
    · exact hwf
    · next hb hz =>
      push_neg at hb
      exact boardWF_bMove b i j X_VAL hwf hb.1 hb.2
        (by simpa [EMPTY_VAL] using not_not.mp hz) (by decide)

theorem boardWF_add_o (b : TttBoard) (i j : Nat) (hwf : boardWF b) :
    boardWF (add_o b i j).1 := by
  unfold add_o
  split
  · exact hwf
  · split
    · exact hwf
    · next hb hz =>
      push_neg at hb
      exact boardWF_bMove b i j O_VAL hwf hb.1 hb.2
        (by simpa [EMPTY_VAL] using not_not.mp hz) (by decide)

/-- C10: `add_x` / `add_o` return false without touching the cells, the
move count or the win state when the coordinates are out of range or the
cell is occupied; otherwise they return true, write exactly the cell
`(i, j)` and bump the move count by one; on well-formed boards the move
count never exceeds 9, and (in range) every vector index the move touches
is below 9. -/
theorem add_move_frame_and_bounds (b : TttBoard) (i j : Nat)
    (hwf : boardWF b) :
    ((i > 2 ∨ j > 2 ∨ bGetValue b i j ≠ 0) →
      add_x b i j = (b, false) ∧ add_o b i j = (b, false))
    ∧ (i ≤ 2 → j ≤ 2 → bGetValue b i j = 0 →
        add_x b i j = (bMove b i j X_VAL, true)
        ∧ add_o b i j = (bMove b i j O_VAL, true)
        ∧ (bMove b i j X_VAL).board = b.board.set (i + 3 * j) X_VAL
        ∧ (bMove b i j O_VAL).board = b.board.set (i + 3 * j) O_VAL
        ∧ (bMove b i j X_VAL).move_count = b.move_count + 1
        ∧ (bMove b i j O_VAL).move_count = b.move_count + 1)
    ∧ (add_x b i j).1.move_count ≤ 9
    ∧ (add_o b i j).1.move_count ≤ 9
    ∧ (i ≤ 2 → j ≤ 2 → ∀ k, k ∈ moveAccesses i j → k < 9) := by
  refine ⟨?_, ?_, ?_, ?_, ?_⟩
  · intro h
    by_cases hb : i > 2 ∨ j > 2
    · simp [add_x, add_o, hb]
    · have h3 : bGetValue b i j ≠ 0 := by tauto
      simp [add_x, add_o, hb, EMPTY_VAL, h3]
  · intro hi hj hz
    have hb : ¬(i > 2 ∨ j > 2) := by omega
    refine ⟨?_, ?_, bMove_board b i j X_VAL, bMove_board b i j O_VAL,
      bMove_move_count b i j X_VAL, bMove_move_count b i j O_VAL⟩
    · simp [add_x, hb, EMPTY_VAL, hz]
    · simp [add_o, hb, EMPTY_VAL, hz]
  · exact boardWF_move_count_le _ (boardWF_add_x b i j hwf)
  · exact boardWF_move_count_le _ (boardWF_add_o b i j hwf)
  · intro hi hj k hk
    by_cases hd : i = j <;> by_cases ha : i + j = 2 <;>
      simp [moveAccesses, hd, ha] at hk <;> omega

/-- C10 witness: on the initial board, a move at `(0, 0)` succeeds and is
`bMove` with `X_VAL`. -/
theorem add_move_frame_and_bounds_witness :
    add_x mkBoard 0 0 = (bMove mkBoard 0 0 X_VAL, true) :=
  ((add_move_frame_and_bounds mkBoard 0 0 ⟨rfl, rfl⟩).2.1
    (by decide) (by decide) rfl).1

/-- C9: a `tic_tac_toe_game` constructed from JSON `j` reports
`is_valid() == true` exactly when `j` has a key "matched" whose value is
the boolean `true`; in particular the matchmaker's cancel payload yields an
invalid game, and a login whose game data is that payload is silently
rejected by `setup_player` (state unchanged, no frame sent). -/
theorem ttt_game_valid_iff_matched :
    (∀ j : Json, tttIsValid (tttGameMk j) = true ↔
      jsonAt j "matched" = some (Json.bool true))
    ∧ tttIsValid (tttGameMk ttt_get_cancel_data) = false
    ∧ (∀ gm : GameModule TttGame, gm.ofJson = tttGameMk →
        gm.is_valid = tttIsValid → ∀ (s : ServerState TttGame) (hdl : Nat),
          setup_player gm s hdl (TokenResult.ok ttt_get_cancel_data) = (s, [])) := by
  have hiff : ∀ j : Json, tttIsValid (tttGameMk j) = true ↔
      jsonAt j "matched" = some (Json.bool true) := by
    intro j
    cases hm : jsonAt j "matched" with
    | none => simp [tttIsValid, tttGameMk, hm]
    | some v => cases v <;> simp [tttIsValid, tttGameMk, hm, jsonGetBool]
  have hcancel : tttIsValid (tttGameMk ttt_get_cancel_data) = false := rfl
  refine ⟨hiff, hcancel, ?_⟩
  intro gm h1 h2 s hdl
  simp [setup_player, extracted_login_json, h1, h2, hcancel]

/-- C9 witness: any game module wired to the tic-tac-toe constructor and
validity check rejects the cancel-payload login on a concrete server
state. -/
theorem ttt_game_valid_iff_matched_witness :
    setup_player tttGM (emptyServer TttGame) 3 (TokenResult.ok ttt_get_cancel_data)
      = (emptyServer TttGame, []) :=
  ttt_game_valid_iff_matched.2.2 tttGM rfl rfl (emptyServer TttGame) 3

theorem ttt_match_loop_data (sess sl : List Nat) (sid : Nat)
    (acc : List MatchGroup)
    (hacc : ∀ g ∈ acc, g.data = Json.obj [("matched", Json.bool true)]) :
    ∀ g ∈ (ttt_match_loop sess sl sid acc).1,
      g.data = Json.obj [("matched", Json.bool true)] := by
  induction sess generalizing sl sid acc with
  | nil => simpa [ttt_match_loop] using hacc
  | cons s rest ih =>
    simp only [ttt_match_loop]
    split
    · refine ih _ _ _ ?_
      intro g hg
      rcases List.mem_append.mp hg with hg | hg
      · exact hacc g hg
      · simp at hg
        subst hg
        rfl
    · exact ih _ _ _ hacc

theorem mem_matchmaking_tick_send (secret : String) (groups : List MatchGroup)
    (p : Nat × SignedToken) :
    p ∈ matchmaking_tick_send secret groups ↔
      ∃ g ∈ groups, ∃ sess ∈ g.sessions,
        p = (sess, sign_game secret g.group_id g.data) := by
  induction groups with
  | nil => simp [matchmaking_tick_send]
  | cons g rest ih =>
    have hunf : matchmaking_tick_send secret (g :: rest) =
        (g.sessions.map fun sess => (sess, sign_game secret g.group_id g.data))
          ++ matchmaking_tick_send secret rest := rfl
    rw [hunf]
    constructor
    · intro hp
      rcases List.mem_append.mp hp with hp | hp
      · rcases List.mem_map.mp hp with ⟨sess, hs, heq⟩
        exact ⟨g, List.mem_cons_self .., sess, hs, heq.symm⟩
      · rcases ih.mp hp with ⟨g', hg', sess, hs, heq⟩
        exact ⟨g', List.mem_cons_of_mem _ hg', sess, hs, heq⟩
    · rintro ⟨g', hg', sess, hs, rfl⟩
      rcases List.mem_cons.mp hg' with rfl | hg'
      · exact List.mem_append.mpr (Or.inl (List.mem_map.mpr ⟨sess, hs, rfl⟩))
      · exact List.mem_append.mpr (Or.inr (ih.mpr ⟨g', hg', sess, hs, rfl⟩))

/-- C8: every token the matchmaking tick sends for the groups emitted by
`tic_tac_toe_matchmaker::match` is signed HS256 with issuer
`tic_tac_toe_matchmaker` and payload claims `id` equal to the group's id
and `data` equal to the group's game data, whose `matched` field equals
`true`; and every listed session of every emitted group is sent such a
token. -/
theorem match_tick_token_claims (sessions : List Nat) (sid0 : Nat)
    (secret : String) :
    (∀ g ∈ (ttt_match sessions sid0).1, ∀ sess ∈ g.sessions,
      (sess, sign_game secret g.group_id g.data) ∈
        matchmaking_tick_send secret (ttt_match sessions sid0).1)
    ∧ (∀ p ∈ matchmaking_tick_send secret (ttt_match sessions sid0).1,
        p.2.alg = "HS256" ∧ p.2.issuer = "tic_tac_toe_matchmaker" ∧
        ∃ g ∈ (ttt_match sessions sid0).1, p.1 ∈ g.sessions ∧
          p.2.claim_id = g.group_id ∧ p.2.claim_data = g.data ∧
          jsonAt g.data "matched" = some (Json.bool true)) := by
  constructor
  · intro g hg sess hs
    exact (mem_matchmaking_tick_send secret _ _).mpr ⟨g, hg, sess, hs, rfl⟩
  · intro p hp
    rcases (mem_matchmaking_tick_send secret _ _).mp hp with ⟨g, hg, sess, hs, rfl⟩
    have hdata := ttt_match_loop_data sessions [] sid0 [] (by simp) g hg
    refine ⟨rfl, rfl, g, hg, hs, rfl, rfl, ?_⟩
    rw [hdata]
    rfl

/-- C8 witness: with two queued sessions 3 and 4, session 3 of the emitted
group 0 is sent the signed token over that group's game data. -/
theorem match_tick_token_claims_witness :
    (3, sign_game "secret" 0 (Json.obj [("matched", Json.bool true)])) ∈
      matchmaking_tick_send "secret" (ttt_match [3, 4] 0).1 :=
  (match_tick_token_claims [3, 4] 0 "secret").1
    { sessions := [3, 4], group_id := 0,
      data := Json.obj [("matched", Json.bool true)] }
    (by simp [ttt_match, ttt_match_loop]) 3 (by simp)

/-- C1: evaluation of `setup_player` at a token whose signature
verification failed (`TokenResult.badVerify`) but whose already-extracted
`game_data` claim is valid game data: the catch clause only logs and does
not return, so the handle IS bound in the session table and
`player_connect` DOES run (here creating the game and its reverse-index
entry) — the behaviour the claim requires (handle left unbound, no
connect) does not hold on this input. -/
theorem setup_player_binds_on_failed_verification :
    verification_ok (TokenResult.badVerify (Json.bool true)) = false
    ∧ lookupA (setup_player jsonGM (emptyServer Json) 42
        (TokenResult.badVerify (Json.bool true))).1.connection_ids 42 = some 7
    ∧ lookupA (setup_player jsonGM (emptyServer Json) 42
        (TokenResult.badVerify (Json.bool true))).1.player_games 7 = some 0 :=
  ⟨rfl, rfl, rfl⟩

/-- C2: evaluation of one tick on two single-game stores: the game whose
module reports `is_done() == true` is kept (no close, no removal did
happen), while the game whose module reports `is_done() == false` is
removed and its player's handle closed with reason "game ended" — the
inverse of the claimed behaviour. -/
theorem tick_keeps_finished_and_removes_running :
    ((update_games_tick doneGM S1 500).1.games = [0]
      ∧ (update_games_tick doneGM S1 500).2 = [])
    ∧ ((update_games_tick runningGM S1 500).1.games = []
      ∧ (update_games_tick runningGM S1 500).2
          = [Effect.closeHdl 5 "game ended"]) :=
  ⟨⟨rfl, rfl⟩, rfl, rfl⟩

/-- C3 counterexample: the quiescent state reached by one tick from `S1`
violates the reverse-index invariant — the tick removed the game from
`m_games` but left player 1's `m_player_games` entry pointing at it. -/
theorem store_invariant_fails_after_tick :
    ¬ storeInvariant (update_games_tick runningGM S1 500).1 := by
  intro h
  have h0 : (0 : Nat) ∈ (update_games_tick runningGM S1 500).1.games :=
    h 1 0 rfl
  have hg : (update_games_tick runningGM S1 500).1.games = [] := rfl
  rw [hg] at h0
  simp at h0

theorem lookupA_foldl_insertA {β : Type} (ids : List Nat)
    (acc : List (Nat × β)) (v0 : β) (p : Nat) (v : β)
    (h : lookupA (ids.foldl (fun a i => insertA a i v0) acc) p = some v) :
    v = v0 ∨ lookupA acc p = some v := by
  induction ids generalizing acc with
  | nil => exact Or.inr h
  | cons i rest ih =>
    simp only [List.foldl_cons] at h
    rcases ih (insertA acc i v0) h with hv | hv
    · exact Or.inl hv
    · by_cases hp : p = i
      · subst hp
        rw [lookupA_insertA_self] at hv
        exact Or.inl (Option.some.inj hv).symm
      · rw [lookupA_insertA_ne acc i p v0 hp] at hv
        exact Or.inr hv

/-- C3 (amended): the reverse-index invariant — every player in
`m_player_games` references a game in `m_games` — is preserved by
`player_connect` and by `player_disconnect` (the latter given unique
reverse-index keys); a tick that removes a game does not preserve it, as
the counterexample shows, because erasing the game from `m_games` leaves
the game's players' reverse-index entries in place. -/
theorem store_invariant_connect_disconnect {σ : Type}
    (gm : GameModule σ) (s : ServerState σ) (hdl : Nat) (d : σ)
    (hnd : (keysA s.player_games).Nodup) (hinv : storeInvariant s) :
    storeInvariant (player_connect gm s hdl d).1
    ∧ storeInvariant (player_disconnect gm s hdl).1 := by
  constructor
  · intro p gid hp
    cases hpg : lookupA s.player_games (gm.get_creator_id d) with
    | none =>
      have hpgp : (player_connect gm s hdl d).1.player_games
          = (gm.get_player_list d).foldl
              (fun acc pid => insertA acc pid s.fresh) s.player_games := by
        simp [player_connect, hpg]
      have hgms : (player_connect gm s hdl d).1.games
          = s.games ++ [s.fresh] := by
        simp [player_connect, hpg]
      rw [hpgp] at hp
      rw [hgms]
      rcases lookupA_foldl_insertA (gm.get_player_list d) s.player_games
        s.fresh p gid hp with rfl | hv
      · simp
      · exact List.mem_append_left _ (hinv p gid hv)
    | some gid0 =>
      cases hh : lookupA s.heap gid0 with
      | none =>
        have hs : (player_connect gm s hdl d).1 = s := by
          simp [player_connect, hpg, hh]
        rw [hs] at hp ⊢
        exact hinv p gid hp
      | some gi =>
        by_cases hc : giStatus gi (gm.get_creator_id d)
        · have hpgp : (player_connect gm s hdl d).1.player_games
              = s.player_games := by
            simp [player_connect, hpg, hh, hc]
          have hgms : (player_connect gm s hdl d).1.games = s.games := by
            simp [player_connect, hpg, hh, hc]
          rw [hpgp] at hp
          rw [hgms]
          exact hinv p gid hp
        · have hpgp : (player_connect gm s hdl d).1.player_games
              = s.player_games := by
            simp [player_connect, hpg, hh, hc]
          have hgms : (player_connect gm s hdl d).1.games = s.games := by
            simp [player_connect, hpg, hh, hc]
          rw [hpgp] at hp
          rw [hgms]
          exact hinv p gid hp
  · intro p gid hp
    have hpg : (player_disconnect gm s hdl).1.player_games
        = eraseA s.player_games ((lookupA s.connection_ids hdl).getD 0) := rfl
    have hgames : (player_disconnect gm s hdl).1.games = s.games := rfl
    rw [hpg, lookupA_eraseA s.player_games _ p hnd] at hp
    rw [hgames]
    by_cases hid : p = (lookupA s.connection_ids hdl).getD 0
    · rw [if_pos hid] at hp
      exact absurd hp (by simp)
    · rw [if_neg hid] at hp
      exact hinv p gid hp

/-- C3 witness: both preservation parts evaluated at the concrete state
`S1` with handle 5 (a duplicate connect of player 1, and handle 5
disconnecting). -/
theorem store_invariant_connect_disconnect_witness :
    storeInvariant (player_connect runningGM S1 5 ()).1
    ∧ storeInvariant (player_disconnect runningGM S1 5).1 :=
  store_invariant_connect_disconnect runningGM S1 5 () (by decide)
    (by
      intro p gid h
      by_cases hp : p = 1
      · subst hp
        simp [S1, lookupA] at h
        simp [S1]
        omega
      · simp [S1, lookupA, hp] at h)

theorem filter_eraseA_of_unique (l : List (Nat × Nat)) (k v : Nat)
    (hnd : (keysA l).Nodup)
    (hf : l.filter (fun e => e.2 == v) = [(k, v)]) :
    (eraseA l k).filter (fun e => e.2 == v) = [] := by
  induction l with
  | nil => simp at hf
  | cons hd tl ih =>
    obtain ⟨k0, v0⟩ := hd
    have hnd2 : (keysA tl).Nodup :=
      (List.nodup_cons.mp (by simpa [keysA] using hnd)).2
    have hk0 : k0 ∉ keysA tl :=
      (List.nodup_cons.mp (by simpa [keysA] using hnd)).1
    by_cases hv : v0 = v
    · subst hv
      rw [List.filter_cons, if_pos (by simp)] at hf
      injection hf with h1 h2
      have hk : k0 = k := congrArg Prod.fst h1
      subst hk
      simpa [eraseA] using h2
    · rw [List.filter_cons, if_neg (by simp [hv])] at hf
      have hmem : (k, v) ∈ tl :=
        List.mem_of_mem_filter (by rw [hf]; exact List.mem_singleton_self _)
      have hkk : ¬(k = k0) := by
        intro hc
        subst hc
        exact hk0 (List.mem_map.mpr ⟨(k, v), hmem, rfl⟩)
      rw [eraseA, if_neg hkk, List.filter_cons, if_neg (by simp [hv])]
      exact ih hnd2 hf

/-- C4: when a player P with an existing game that reports P connected
completes a second login (`setup_player` on a fresh handle with a verified
valid token for P), the previous handle is removed from the session table
and closed with reason "player connected again", the new handle is
attached to the game, and exactly one session-table entry maps to P
afterwards: the new handle. -/
theorem duplicate_connect_evicts_previous {σ : Type} (gm : GameModule σ)
    (s : ServerState σ) (gd : Json) (P gid oldh newh : Nat)
    (gi : GameInstance σ)
    (hvalid : gm.is_valid (gm.ofJson gd) = true)
    (hcreator : gm.get_creator_id (gm.ofJson gd) = P)
    (hpg : lookupA s.player_games P = some gid)
    (hheap : lookupA s.heap gid = some gi)
    (hconn : giStatus gi P = true)
    (hold : giGetConnection gi P = oldh)
    (hkeys : (keysA s.connection_ids).Nodup)
    (hfilter : s.connection_ids.filter (fun e => e.2 == P) = [(oldh, P)])
    (hnew : lookupA s.connection_ids newh = none) :
    (setup_player gm s newh (TokenResult.ok gd)).2
        = [Effect.closeHdl oldh "player connected again"]
    ∧ (setup_player gm s newh (TokenResult.ok gd)).1.connection_ids.filter
        (fun e => e.2 == P) = [(newh, P)]
    ∧ lookupA (setup_player gm s newh (TokenResult.ok gd)).1.heap gid
        = some (giConnect gm gi P newh)
    ∧ lookupA (giConnect gm gi P newh).connections P = some newh := by
  have hsetup : setup_player gm s newh (TokenResult.ok gd)
      = player_connect gm
          { s with connection_ids := insertA s.connection_ids newh P }
          newh (gm.ofJson gd) := by
    simp [setup_player, extracted_login_json, hvalid, hcreator]
  have hpc : player_connect gm
      { s with connection_ids := insertA s.connection_ids newh P }
      newh (gm.ofJson gd)
      = ({ s with
            connection_ids := eraseA (insertA s.connection_ids newh P) oldh
            heap := insertA s.heap gid (giConnect gm gi P newh) },
         [Effect.closeHdl oldh "player connected again"]) := by
    simp [player_connect, hcreator, hpg, hheap, hconn, hold]
  have hmem : (oldh, P) ∈ s.connection_ids :=
    List.mem_of_mem_filter (by rw [hfilter]; exact List.mem_singleton_self _)
  have hmemk : oldh ∈ keysA s.connection_ids :=
    List.mem_map.mpr ⟨(oldh, P), hmem, rfl⟩
  have hgc : giConnect gm gi P newh
      = { gi with connections := insertA gi.connections P newh } := by
    have h' : (lookupA gi.status P).getD false = true := hconn
    simp [giConnect, h']
  refine ⟨?_, ?_, ?_, ?_⟩
  · rw [hsetup, hpc]
  · rw [hsetup, hpc]
    show (eraseA (insertA s.connection_ids newh P) oldh).filter
        (fun e => e.2 == P) = [(newh, P)]
    rw [insertA_eq_append s.connection_ids newh P hnew,
      eraseA_append_left s.connection_ids [(newh, P)] oldh hmemk,
      List.filter_append,
      filter_eraseA_of_unique s.connection_ids oldh P hkeys hfilter]
    simp
  · rw [hsetup, hpc]
    exact lookupA_insertA_self s.heap gid (giConnect gm gi P newh)
  · rw [hgc]
    exact lookupA_insertA_self gi.connections P newh

/-- C4 witness: on the concrete state `S4`, handle 12 logging in as player
7 closes old handle 11 with "player connected again" and leaves handle 12
as the only session-table entry for player 7. -/
theorem duplicate_connect_evicts_previous_witness :
    (setup_player jsonGM S4 12 (TokenResult.ok (Json.bool true))).2
        = [Effect.closeHdl 11 "player connected again"]
    ∧ (setup_player jsonGM S4 12
        (TokenResult.ok (Json.bool true))).1.connection_ids.filter
        (fun e => e.2 == 7) = [(12, 7)] := by
  have h := duplicate_connect_evicts_previous jsonGM S4 (Json.bool true)
    7 0 11 12 gi4 rfl rfl rfl rfl rfl rfl (by decide) (by decide) rfl
  exact ⟨h.1, h.2.1⟩

end Catacrawl
